import Mathlib

/-!
# auth-plugin-stub: authorizer, auditor and request handler

A shallow embedding of `authz/basic.go` (the basic authorizer and the basic
auditor) and of the request handler of `core/server.go`.

Modelling conventions.

* Go pointers that may be nil are `Option`; a Go `error` result is an
  `Option String` holding the error text (`none` is the nil error).
* `core.ParseRoute` is not part of the sources at hand, so the authorizer
  takes it as a parameter `ParseRoute : String → String → String`.
* The operating system is an `Env`: the results of dialling syslog and of
  opening the audit file, and the clock.  An `Env` is passed to every call, so
  it may differ from one call to the next.  The policy files on disk are a
  `Disk`.
* The audit logger is the `logrus.Logger` value held by the auditor, reduced to
  the three fields the code touches (`Out`, `Formatter`, `Hooks`).  A call of
  `logger.WithFields(fields).Info(msg)` is recorded as one `Record` in the list
  of records returned by the call: the logger that writes it and the `Entry` it
  writes.  The line written for an entry is given by `JSONFormatter.Format`,
  the formatter `init` installs.  `logrus.New()` logs at `InfoLevel` and the
  code never changes the level, so `Info` always emits; `Info` has no result.
* A Go method that is handed a pointer may write through it.  The `Auditor`
  interface therefore returns, with its result, the content of the response
  object after the call, and the handler writes back that content.
* Messages sent to the process-wide logger (`logrus.Debugf`, `logrus.Infof`,
  `logrus.Errorf`) and the discarded result of `os.MkdirAll` do not influence
  any value computed by the code and are left out.
-/

namespace AuthPluginStub

/-! ## Data model -/

/-- Request of `docker/pkg/authorization` (the fields a client request carries). -/
structure Request where
  User : String := ""
  UserAuthNMethod : String := ""
  RequestMethod : String := ""
  RequestURI : String := ""
  RequestBody : List Nat := []
  deriving DecidableEq, Repr

/-- Response of `docker/pkg/authorization`. -/
structure Response where
  Allow : Bool := false
  Msg : String := ""
  Err : String := ""
  deriving DecidableEq, Repr

/-- BasicPolicy: a single policy object (`authz/basic.go`, lines 26-32). -/
structure BasicPolicy where
  Actions : List String := []
  Users : List String := []
  Name : String := ""
  Readonly : Bool := false
  deriving DecidableEq, Repr

def AuditHookSyslog : String := "syslog"
def AuditHookFile : String := "file"
def AuditHookStdout : String := ""

def defaultAuditLogPath : String := "/var/log/auth-plugin-stub.log"

/-- BasicAuthorizerSettings: settings of the basic authorizer. -/
structure BasicAuthorizerSettings where
  PolicyPath : String := ""
  deriving DecidableEq, Repr

structure basicAuthorizer where
  settings : Option BasicAuthorizerSettings := none
  policies : List BasicPolicy := []
  deriving DecidableEq, Repr

/-! ## The basic authorizer -/

def NewBasicAuthZAuthorizer (settings : Option BasicAuthorizerSettings) : basicAuthorizer :=
  { settings := settings }

/-- The policy files on disk: the policies the file at a path declares, when
there is such a file. -/
abbrev Disk := String → Option (List BasicPolicy)

/-- Init of the authorizer (`authz/basic.go`, lines 58-63): reads nothing,
leaves the authorizer as it is and returns the nil error. -/
def basicAuthorizer.Init (_disk : Disk) (f : basicAuthorizer) :
    basicAuthorizer × Option String :=
  (f, none)

/-- AuthZReq (`authz/basic.go`, lines 65-75): classifies the request with
`ParseRoute` and returns an allowing response naming the action. -/
def basicAuthorizer.AuthZReq (ParseRoute : String → String → String)
    (_f : basicAuthorizer) (authZReq : Request) : Response :=
  let action := ParseRoute authZReq.RequestMethod authZReq.RequestURI
  { Allow := true, Msg := "Action '" ++ action ++ "' allowed" }

/-- AuthZRes (`authz/basic.go`, lines 77-80): always allow responses from server. -/
def basicAuthorizer.AuthZRes (_f : basicAuthorizer) (_authZReq : Request) : Response :=
  { Allow := true }

/-! ## The audit logger -/

/-- An open file, as returned by `os.OpenFile`. -/
structure File where
  name : String
  fd : Nat
  deriving DecidableEq, Repr

/-- The writer a logger prints to: `os.Stderr` (what `logrus.New()` sets) or a file. -/
inductive Writer where
  | stderr
  | file (f : File)
  deriving DecidableEq, Repr

inductive LogFormatter where
  | text
  | json
  deriving DecidableEq, Repr

/-- A syslog hook, as returned by `logrus_syslog.NewSyslogHook`. -/
structure SyslogHook where
  network : String
  raddr : String
  priority : Nat
  tag : String
  deriving DecidableEq, Repr

/-- The priority `syslog.LOG_ERR`. -/
def LOG_ERR : Nat := 3

structure Logger where
  Out : Writer
  Formatter : LogFormatter
  Hooks : List SyslogHook
  deriving DecidableEq, Repr

/-- The logger `logrus.New()` returns: standard error, text formatter, no hooks. -/
def logrusNew : Logger :=
  { Out := Writer.stderr, Formatter := LogFormatter.text, Hooks := [] }

/-- A value stored in `logrus.Fields`: the code stores strings and one boolean. -/
inductive FieldValue where
  | str (s : String)
  | bool (b : Bool)
  deriving DecidableEq, Repr

/-- The map `logrus.Fields`, as an association list with distinct keys. -/
abbrev Fields := List (String × FieldValue)

/-- Map assignment `m[k] = v`. -/
def Fields.set : Fields → String → FieldValue → Fields
  | [], k, v => [(k, v)]
  | (k', v') :: rest, k, v =>
    if k' = k then (k, v) :: rest else (k', v') :: Fields.set rest k v

/-- Map lookup `m[k]`. -/
def Fields.get (m : Fields) (k : String) : Option FieldValue :=
  (m.find? (fun kv => kv.1 == k)).map Prod.snd

/-- The keys of the map. -/
def Fields.keys (m : Fields) : List String :=
  m.map Prod.fst

inductive Level where
  | error
  | warn
  | info
  | debug
  deriving DecidableEq, Repr

/-- The name of a level, as `Level.String()` of logrus gives it. -/
def Level.name : Level → String
  | Level.error => "error"
  | Level.warn => "warning"
  | Level.info => "info"
  | Level.debug => "debug"

/-- The `logrus.Entry` a formatter receives: the fields given by the caller, the
time of the call (in the default timestamp layout), the level and the message. -/
structure Entry where
  Data : Fields
  Time : String
  Level : Level
  Message : String
  deriving DecidableEq, Repr

/-- The function `prefixFieldClashes` of logrus: a field of the caller named
`time`, `msg` or `level` is copied under `fields.time`, `fields.msg` or
`fields.level`. -/
def prefixFieldClashes (data : Fields) : Fields :=
  let data := match Fields.get data "time" with
    | some v => Fields.set data "fields.time" v
    | none => data
  let data := match Fields.get data "msg" with
    | some v => Fields.set data "fields.msg" v
    | none => data
  match Fields.get data "level" with
  | some v => Fields.set data "fields.level" v
  | none => data

/-- The method `Format` of the `logrus.JSONFormatter`: the keys and values of the
JSON object written for an entry.  The fields of the caller come first, clashes
renamed; then `time`, `msg` and `level` are set from the entry. -/
def JSONFormatter.Format (entry : Entry) : Fields :=
  let data := prefixFieldClashes entry.Data
  let data := Fields.set data "time" (FieldValue.str entry.Time)
  let data := Fields.set data "msg" (FieldValue.str entry.Message)
  Fields.set data "level" (FieldValue.str entry.Level.name)

/-- One emitted record: the logger that writes it (its output, formatter and
hooks) and the entry it writes. -/
structure Record where
  logger : Logger
  entry : Entry
  deriving DecidableEq, Repr

/-- The record of `logger.WithFields(fields).Info(msg)`, called at time `now`. -/
def Logger.Info (l : Logger) (now : String) (fields : Fields) (msg : String) : Record :=
  { logger := l, entry := { Data := fields, Time := now, Level := Level.info, Message := msg } }

/-! ## The basic auditor -/

/-- BasicAuditorSettings: settings used by the basic auditor. -/
structure BasicAuditorSettings where
  LogHook : String := ""
  LogPath : String := ""
  deriving DecidableEq, Repr

structure basicAuditor where
  logger : Option Logger := none
  settings : Option BasicAuditorSettings := none
  deriving DecidableEq, Repr

def NewBasicAuditor (settings : Option BasicAuditorSettings) : basicAuditor :=
  { settings := settings }

/-- The operating system as seen by the auditor: dialling syslog, opening a
file, and the time `time.Now()` returns, in the default timestamp layout. -/
structure Env where
  NewSyslogHook : String → String → Nat → String → Except String SyslogHook
  OpenFile : String → Except String File
  Now : String

/-- init (`authz/basic.go`, lines 137-184): returns the auditor after the call
and the error. -/
def basicAuditor.init (env : Env) (b : basicAuditor) : basicAuditor × Option String :=
  match b.settings with
  | none => (b, some "Settings are not defined")
  | some settings =>
    match b.logger with
    | some _ => (b, none)
    | none =>
      let logger : Logger := { logrusNew with Formatter := LogFormatter.json }
      let b1 : basicAuditor := { b with logger := some logger }
      if settings.LogHook = AuditHookSyslog then
        match env.NewSyslogHook "" "" LOG_ERR "authz" with
        | Except.error err => (b1, some err)
        | Except.ok hook =>
          ({ b1 with logger := some { logger with Hooks := logger.Hooks ++ [hook] } }, none)
      else if settings.LogHook = AuditHookFile then
        let logPath := if settings.LogPath = "" then defaultAuditLogPath else settings.LogPath
        match env.OpenFile logPath with
        | Except.error err => (b1, some err)
        | Except.ok f => ({ b1 with logger := some { logger with Out := Writer.file f } }, none)
      else if settings.LogHook = AuditHookStdout then
        (b1, none)
      else
        (b1, some ("Wrong log hook value '" ++ settings.LogHook ++ "'"))

/-- How a call ended: it returned its `error` result, or it panicked (a nil
pointer dereference). -/
inductive Outcome where
  | returned (err : Option String)
  | panicked
  deriving DecidableEq, Repr

/-- The result of an auditor call: the auditor after the call, the records
emitted through its logger, and how the call ended. -/
structure AuditResult where
  auditor : basicAuditor
  records : List Record
  outcome : Outcome
  deriving DecidableEq, Repr

/-- AuditRequest (`authz/basic.go`, lines 100-129). -/
def basicAuditor.AuditRequest (env : Env) (b : basicAuditor)
    (req : Option Request) (pluginRes : Option Response) : AuditResult :=
  match req with
  | none => ⟨b, [], Outcome.returned (some "Authorization request is nil")⟩
  | some r =>
    match pluginRes with
    | none => ⟨b, [], Outcome.returned (some "Authorization response is nil")⟩
    | some p =>
      match b.init env with
      | (b1, some err) => ⟨b1, [], Outcome.returned (some err)⟩
      | (b1, none) =>
        let fields : Fields :=
          [ ("method", FieldValue.str r.RequestMethod),
            ("uri", FieldValue.str r.RequestURI),
            ("user", FieldValue.str r.User),
            ("allow", FieldValue.bool p.Allow),
            ("msg", FieldValue.str p.Msg) ]
        let fields : Fields :=
          if pluginRes.isSome || p.Err != "" then Fields.set fields "err" (FieldValue.str p.Err)
          else fields
        match b1.logger with
        | none => ⟨b1, [], Outcome.panicked⟩
        | some l => ⟨b1, [l.Info env.Now fields "Request"], Outcome.returned none⟩

/-- AuditResponse (`authz/basic.go`, lines 131-134): only requests are logged. -/
def basicAuditor.AuditResponse (b : basicAuditor)
    (_req : Option Request) (_pluginRes : Option Response) : AuditResult :=
  ⟨b, [], Outcome.returned none⟩

/-- A call made on an auditor. -/
inductive Call where
  | init (env : Env)
  | AuditRequest (env : Env) (req : Option Request) (pluginRes : Option Response)
  | AuditResponse (req : Option Request) (pluginRes : Option Response)

/-- The result of one call on the auditor. -/
def basicAuditor.call (b : basicAuditor) : Call → AuditResult
  | Call.init env =>
    let r := b.init env
    ⟨r.1, [], Outcome.returned r.2⟩
  | Call.AuditRequest env req pluginRes => b.AuditRequest env req pluginRes
  | Call.AuditResponse req pluginRes => b.AuditResponse req pluginRes

/-- The auditor after a sequence of calls, made one after the other. -/
def basicAuditor.after (b : basicAuditor) : List Call → basicAuditor
  | [] => b
  | c :: cs => basicAuditor.after (b.call c).auditor cs

/-- The auditor has settings that select the standard output hook. -/
def basicAuditor.hasStdoutSettings (b : basicAuditor) : Prop :=
  ∃ s, b.settings = some s ∧ s.LogHook = AuditHookStdout

/-- The logger of the auditor, when it has one, has the JSON formatter. -/
def basicAuditor.hasJsonLogger (b : basicAuditor) : Prop :=
  ∀ l, b.logger = some l → l.Formatter = LogFormatter.json

/-! ## The server (`core/server.go`) -/

/-- Authorizer: the interface of `core/interfaces.go`. -/
structure Authorizer where
  Init : Option String
  AuthZReq : Request → Option Response
  AuthZRes : Request → Option Response

/-- What a call of an auditor method left behind: the state of the auditor, the
content of the response object the call was handed (the call holds a pointer to
it and may have written to it; the content means nothing when that pointer was
nil), and how the call ended. -/
structure AuditorResult (σ : Type) where
  state : σ
  pluginRes : Response
  outcome : Outcome

/-- Auditor: the interface of `core/interfaces.go`, for an implementation whose
state has type `σ`. -/
structure Auditor (σ : Type) where
  AuditRequest : σ → Option Request → Option Response → AuditorResult σ
  AuditResponse : σ → Option Request → Option Response → AuditorResult σ

/-- The basic authorizer as an `Authorizer`. -/
def basicAuthorizer.toAuthorizer (ParseRoute : String → String → String) (disk : Disk)
    (f : basicAuthorizer) : Authorizer :=
  { Init := (f.Init disk).2
    AuthZReq := fun req => some (f.AuthZReq ParseRoute req)
    AuthZRes := fun req => some (f.AuthZRes req) }

/-- The basic auditor as an `Auditor`: its methods only read the response, so
the response object is after the call what it was before. -/
def basicAuditor.toAuditor (env : Env) : Auditor basicAuditor :=
  { AuditRequest := fun b req res =>
      let r := b.AuditRequest env req res
      ⟨r.auditor, res.getD {}, r.outcome⟩
    AuditResponse := fun b req res =>
      let r := b.AuditResponse req res
      ⟨r.auditor, res.getD {}, r.outcome⟩ }

/-- A call made on the `http.ResponseWriter`. -/
inductive WriterCall where
  | Write (data : List Nat)
  | WriteHeader (code : Nat)
  deriving DecidableEq, Repr

/-- The `http.ResponseWriter`, as the calls made on it so far. -/
abbrev ResponseWriter := List WriterCall

def StatusInternalServerError : Nat := 500

/-- The functions of `encoding/json` the server uses. -/
structure Json where
  Unmarshal : List Nat → Except String Request
  Marshal : Option Response → Except String (List Nat)

/-- writeResponse (`core/server.go`, lines 147-160). -/
def writeResponse (J : Json) (w : ResponseWriter) (authZRes : Option Response) :
    ResponseWriter :=
  match J.Marshal authZRes with
  | Except.error _ => w
  | Except.ok data =>
    let w1 := w ++ [WriterCall.Write data]
    match authZRes with
    | none => w1 ++ [WriterCall.WriteHeader StatusInternalServerError]
    | some res =>
      if res.Err != "" then w1 ++ [WriterCall.WriteHeader StatusInternalServerError] else w1

/-- writeErr (`core/server.go`, lines 163-165). -/
def writeErr (J : Json) (w : ResponseWriter) (err : String) : ResponseWriter :=
  writeResponse J w (some { Err := err })

/-- The handler of the authorization request route (`core/server.go`, lines
73-103).  `body` is the result of `ioutil.ReadAll(r.Body)`.  The result is the
auditor state and the response writer after the handler.  `authZRes` is a
pointer: the auditor is handed it, and `writeResponse` marshals the object it
points to as the auditor left it.  When the auditor panics the handler is
abandoned before it writes. -/
def handleAuthZReq {σ : Type} (J : Json) (authorizer : Authorizer) (auditor : Auditor σ)
    (s : σ) (w : ResponseWriter) (body : Except String (List Nat)) : σ × ResponseWriter :=
  match body with
  | Except.error err => (s, writeErr J w err)
  | Except.ok bytes =>
    match J.Unmarshal bytes with
    | Except.error err => (s, writeErr J w err)
    | Except.ok authReq =>
      let authZRes := authorizer.AuthZReq authReq
      let r := auditor.AuditRequest s (some authReq) authZRes
      match r.outcome with
      | Outcome.panicked => (r.state, w)
      | Outcome.returned _ => (r.state, writeResponse J w (authZRes.map (fun _ => r.pluginRes)))

/-! ## Sample values used to instantiate the theorems -/

/-- An operating system in which syslog is unreachable and files open. -/
def sampleEnv : Env :=
  { NewSyslogHook := fun _ _ _ _ => Except.error "Unix syslog delivery error"
    OpenFile := fun name => Except.ok { name := name, fd := 3 }
    Now := "2016-02-01T10:00:00Z" }

/-- A stand-in route parser for the sample runs. -/
def sampleParseRoute : String → String → String :=
  fun _ _ => "container_create"

def sampleCreate : Request :=
  { User := "alice", RequestMethod := "POST", RequestURI := "/containers/create" }

/-- A stand-in JSON codec for the sample runs: every body decodes to the same
request, a response encodes to one byte telling whether it allows. -/
def sampleJson : Json :=
  { Unmarshal := fun _ => Except.ok sampleCreate
    Marshal := fun res =>
      match res with
      | none => Except.ok [0]
      | some r => Except.ok [if r.Allow then 2 else 1] }

/-- The basic authorizer, without policies, behind the `Authorizer` interface. -/
def sampleAuthorizer : Authorizer :=
  (NewBasicAuthZAuthorizer none).toAuthorizer sampleParseRoute (fun _ => none)

/-- A disk whose policy file declares the read-only policy `ro` for `carol`. -/
def samplePolicyFiles : Disk :=
  fun path =>
    if path = "/var/lib/authz/policy.json" then
      some [{ Name := "ro", Users := ["carol"], Actions := [".*"], Readonly := true }]
    else none

/-- An auditor that succeeds and, through the pointer it is handed, sets `Allow`
of the response to false. -/
def denyingAuditor : Auditor Unit :=
  { AuditRequest := fun s _ res =>
      ⟨s, { res.getD {} with Allow := false }, Outcome.returned none⟩
    AuditResponse := fun s _ res => ⟨s, res.getD {}, Outcome.returned none⟩ }

def sampleRequest : Request :=
  { User := "user", RequestMethod := "GET", RequestURI := "/containers/json" }

def sampleResponse : Response :=
  { Allow := true, Msg := "Action 'container_list' allowed" }

/-! ## Helper lemmas -/

theorem AuthZReq_Allow (ParseRoute : String → String → String) (f : basicAuthorizer)
    (req : Request) : (f.AuthZReq ParseRoute req).Allow = true := rfl

theorem AuthZReq_Msg (ParseRoute : String → String → String) (f : basicAuthorizer)
    (req : Request) :
    (f.AuthZReq ParseRoute req).Msg
      = "Action '" ++ ParseRoute req.RequestMethod req.RequestURI ++ "' allowed" := rfl

/-- A string with a non-empty left part is not empty. -/
theorem append_ne_empty (a b c : String) (ha : 0 < a.length) : a ++ b ++ c ≠ "" := by
  intro h
  have hl := congrArg String.length h
  simp only [String.length_append] at hl
  have h0 : ("" : String).length = 0 := rfl
  omega

/-- On an auditor that has settings and a logger, `init` changes nothing and
returns the nil error. -/
theorem init_of_logger (env : Env) (b : basicAuditor) (s : BasicAuditorSettings) (l : Logger)
    (hs : b.settings = some s) (hl : b.logger = some l) : b.init env = (b, none) := by
  simp [basicAuditor.init, hs, hl]

/-- When `init` returns the nil error the auditor has settings and a logger, and
its settings are those it had. -/
theorem init_success (env : Env) (b b1 : basicAuditor) (h : b.init env = (b1, none)) :
    (∃ s, b1.settings = some s) ∧ (∃ l, b1.logger = some l) ∧ b1.settings = b.settings := by
  cases hs : b.settings with
  | none => simp [basicAuditor.init, hs] at h
  | some s =>
    cases hl : b.logger with
    | some l =>
      simp only [basicAuditor.init, hs, hl] at h
      have hb : b = b1 := (Prod.mk.inj h).1
      subst hb
      exact ⟨⟨s, hs⟩, ⟨l, hl⟩, hs⟩
    | none =>
      simp only [basicAuditor.init, hs, hl] at h
      by_cases h1 : s.LogHook = AuditHookSyslog
      · rw [if_pos h1] at h
        cases hd : env.NewSyslogHook "" "" LOG_ERR "authz" with
        | error err => simp [hd] at h
        | ok hook =>
          simp only [hd] at h
          have hb := (Prod.mk.inj h).1
          subst hb
          exact ⟨⟨s, rfl⟩, ⟨_, rfl⟩, rfl⟩
      · rw [if_neg h1] at h
        by_cases h2 : s.LogHook = AuditHookFile
        · rw [if_pos h2] at h
          cases ho : env.OpenFile
              (if s.LogPath = "" then defaultAuditLogPath else s.LogPath) with
          | error err => simp [ho] at h
          | ok f =>
            simp only [ho] at h
            have hb := (Prod.mk.inj h).1
            subst hb
            exact ⟨⟨s, rfl⟩, ⟨_, rfl⟩, rfl⟩
        · rw [if_neg h2] at h
          by_cases h3 : s.LogHook = AuditHookStdout
          · rw [if_pos h3] at h
            have hb := (Prod.mk.inj h).1
            subst hb
            exact ⟨⟨s, rfl⟩, ⟨_, rfl⟩, rfl⟩
          · rw [if_neg h3] at h
            simp at h

/-- On an auditor that has settings and a logger, `AuditRequest` with a request
and a response emits one record through that logger, returns the nil error and
leaves the auditor as it was. -/
theorem AuditRequest_of_logger (env : Env) (b : basicAuditor) (s : BasicAuditorSettings)
    (l : Logger) (hs : b.settings = some s) (hl : b.logger = some l)
    (req : Request) (res : Response) :
    (b.AuditRequest env (some req) (some res)).auditor = b ∧
    (b.AuditRequest env (some req) (some res)).outcome = Outcome.returned none ∧
    ∃ e, (b.AuditRequest env (some req) (some res)).records = [e] ∧ e.logger = l := by
  simp [basicAuditor.AuditRequest, init_of_logger env b s l hs hl, hl, Logger.Info]

/-- Every call leaves an auditor that has settings and a logger as it was. -/
theorem call_of_logger (b : basicAuditor) (s : BasicAuditorSettings) (l : Logger)
    (hs : b.settings = some s) (hl : b.logger = some l) (c : Call) :
    (b.call c).auditor = b := by
  cases c with
  | init env => simp [basicAuditor.call, init_of_logger env b s l hs hl]
  | AuditRequest env req res =>
    cases req with
    | none => simp [basicAuditor.call, basicAuditor.AuditRequest]
    | some r =>
      cases res with
      | none => simp [basicAuditor.call, basicAuditor.AuditRequest]
      | some p => exact (AuditRequest_of_logger env b s l hs hl r p).1
  | AuditResponse req res => simp [basicAuditor.call, basicAuditor.AuditResponse]

theorem after_of_logger (b : basicAuditor) (s : BasicAuditorSettings) (l : Logger)
    (hs : b.settings = some s) (hl : b.logger = some l) (cs : List Call) :
    b.after cs = b := by
  induction cs with
  | nil => rfl
  | cons c cs ih =>
    simp only [basicAuditor.after]
    rw [call_of_logger b s l hs hl c]
    exact ih

/-- With settings that select the standard output hook, `init` returns the nil
error and keeps the settings. -/
theorem init_stdout (env : Env) (b : basicAuditor) (h : b.hasStdoutSettings) :
    (b.init env).2 = none ∧ (b.init env).1.hasStdoutSettings := by
  obtain ⟨s, hs, hk⟩ := h
  cases hl : b.logger with
  | some l =>
    rw [init_of_logger env b s l hs hl]
    exact ⟨rfl, s, hs, hk⟩
  | none =>
    have e1 : ¬ s.LogHook = AuditHookSyslog := by rw [hk]; decide
    have e2 : ¬ s.LogHook = AuditHookFile := by rw [hk]; decide
    simp only [basicAuditor.init, hs, hl, if_neg e1, if_neg e2, if_pos hk]
    exact ⟨trivial, s, rfl, hk⟩

/-- Every call keeps settings that select the standard output hook. -/
theorem call_stdout (b : basicAuditor) (h : b.hasStdoutSettings) (c : Call) :
    (b.call c).auditor.hasStdoutSettings := by
  cases c with
  | init env => exact (init_stdout env b h).2
  | AuditRequest env req res =>
    cases req with
    | none => simpa [basicAuditor.call, basicAuditor.AuditRequest] using h
    | some r =>
      cases res with
      | none => simpa [basicAuditor.call, basicAuditor.AuditRequest] using h
      | some p =>
        have hi := init_stdout env b h
        cases hr : b.init env with
        | mk b1 e =>
          rw [hr] at hi
          simp only at hi
          obtain ⟨he, hb1⟩ := hi
          subst he
          obtain ⟨_, ⟨l, hl⟩, _⟩ := init_success env b b1 hr
          simpa [basicAuditor.call, basicAuditor.AuditRequest, hr, hl] using hb1
  | AuditResponse req res => simpa [basicAuditor.call, basicAuditor.AuditResponse] using h

theorem after_stdout (b : basicAuditor) (h : b.hasStdoutSettings) (cs : List Call) :
    (b.after cs).hasStdoutSettings := by
  induction cs generalizing b with
  | nil => exact h
  | cons c cs ih => exact ih _ (call_stdout b h c)

/-- After `init` the logger of the auditor, when it has one, has the JSON
formatter, if that was so before. -/
theorem init_json (env : Env) (b : basicAuditor) (h : b.hasJsonLogger) :
    (b.init env).1.hasJsonLogger := by
  cases hs : b.settings with
  | none => simpa [basicAuditor.init, hs] using h
  | some s =>
    cases hl : b.logger with
    | some l => simpa [basicAuditor.init, hs, hl] using h
    | none =>
      simp only [basicAuditor.init, hs, hl]
      by_cases h1 : s.LogHook = AuditHookSyslog
      · rw [if_pos h1]
        cases env.NewSyslogHook "" "" LOG_ERR "authz" with
        | error err => intro l hl2; cases hl2; rfl
        | ok hook => intro l hl2; cases hl2; rfl
      · rw [if_neg h1]
        by_cases h2 : s.LogHook = AuditHookFile
        · rw [if_pos h2]
          cases env.OpenFile (if s.LogPath = "" then defaultAuditLogPath else s.LogPath) with
          | error err => intro l hl2; cases hl2; rfl
          | ok f => intro l hl2; cases hl2; rfl
        · rw [if_neg h2]
          by_cases h3 : s.LogHook = AuditHookStdout
          · rw [if_pos h3]; intro l hl2; cases hl2; rfl
          · rw [if_neg h3]; intro l hl2; cases hl2; rfl

/-- The auditor after `AuditRequest` is the auditor before it or the auditor
`init` leaves. -/
theorem AuditRequest_auditor (env : Env) (b : basicAuditor)
    (req : Option Request) (res : Option Response) :
    (b.AuditRequest env req res).auditor = b ∨
    (b.AuditRequest env req res).auditor = (b.init env).1 := by
  cases req with
  | none => exact Or.inl rfl
  | some r =>
    cases res with
    | none => exact Or.inl rfl
    | some p =>
      right
      cases hr : b.init env with
      | mk b1 e =>
        cases e with
        | some err => simp [basicAuditor.AuditRequest, hr]
        | none =>
          cases hl : b1.logger with
          | none => simp [basicAuditor.AuditRequest, hr, hl]
          | some l => simp [basicAuditor.AuditRequest, hr, hl]

theorem call_json (b : basicAuditor) (h : b.hasJsonLogger) (c : Call) :
    (b.call c).auditor.hasJsonLogger := by
  cases c with
  | init env => exact init_json env b h
  | AuditRequest env req res =>
    rcases AuditRequest_auditor env b req res with h1 | h1
    · simpa [basicAuditor.call, h1] using h
    · simpa [basicAuditor.call, h1] using init_json env b h
  | AuditResponse req res => simpa [basicAuditor.call, basicAuditor.AuditResponse] using h

theorem after_json (b : basicAuditor) (h : b.hasJsonLogger) (cs : List Call) :
    (b.after cs).hasJsonLogger := by
  induction cs generalizing b with
  | nil => exact h
  | cons c cs ih => exact ih _ (call_json b h c)

/-- The basic auditor leaves the response object it is handed as it was. -/
theorem toAuditor_keeps_response (env : Env) (b : basicAuditor) (req : Option Request)
    (res : Response) :
    ((basicAuditor.toAuditor env).AuditRequest b req (some res)).pluginRes = res := rfl

/-! ## The claims -/

/-- C1 (the code departs from the claim).  The claim: a request whose user
belongs to no loaded policy is denied.  The code: on the authorizer built by
`NewBasicAuthZAuthorizer`, which holds no policies, `AuthZReq` answers
`Allow = true` to the request of user `bob` and to a request with an empty
user, whatever the route parser returns. -/
theorem AuthZReq_allows_user_without_policy (ParseRoute : String → String → String) :
    (NewBasicAuthZAuthorizer (some { PolicyPath := "/var/lib/authz/policy.json" })).policies = [] ∧
    ((NewBasicAuthZAuthorizer (some { PolicyPath := "/var/lib/authz/policy.json" })).AuthZReq
      ParseRoute
      { User := "bob", RequestMethod := "POST", RequestURI := "/containers/create" }).Allow
      = true ∧
    ((NewBasicAuthZAuthorizer (some { PolicyPath := "/var/lib/authz/policy.json" })).AuthZReq
      ParseRoute
      { User := "", RequestMethod := "POST", RequestURI := "/containers/create" }).Allow
      = true :=
  ⟨rfl, AuthZReq_Allow _ _ _, AuthZReq_Allow _ _ _⟩

/-- C2 (the code departs from the claim).  The claim: a mutating request of a
user whose policy is read-only is denied.  The code: the policy file at
`PolicyPath` declares the policy `ro` (users `carol`, `Readonly = true`); `Init`
returns the nil error without reading it and leaves the authorizer built by
`NewBasicAuthZAuthorizer` without policies; `AuthZReq` then answers
`Allow = true` to carol's `POST /containers/create`, whatever action the route
parser returns. -/
theorem AuthZReq_allows_readonly_user_to_mutate (ParseRoute : String → String → String) :
    samplePolicyFiles "/var/lib/authz/policy.json"
      = some [{ Name := "ro", Users := ["carol"], Actions := [".*"], Readonly := true }] ∧
    (NewBasicAuthZAuthorizer (some { PolicyPath := "/var/lib/authz/policy.json" })).Init
        samplePolicyFiles
      = ({ settings := some { PolicyPath := "/var/lib/authz/policy.json" }, policies := [] },
         none) ∧
    (((NewBasicAuthZAuthorizer (some { PolicyPath := "/var/lib/authz/policy.json" })).Init
        samplePolicyFiles).1.AuthZReq ParseRoute
      { User := "carol", RequestMethod := "POST", RequestURI := "/containers/create" }).Allow
      = true :=
  ⟨rfl, rfl, AuthZReq_Allow _ _ _⟩

/-- C3.  On every auditor, a call of `AuditRequest` whose request is nil or
whose response is nil returns an error, emits no record and leaves the auditor
(its logger and its settings) as it was. -/
theorem AuditRequest_nil_argument (env : Env) (b : basicAuditor)
    (req : Option Request) (pluginRes : Option Response)
    (h : req = none ∨ pluginRes = none) :
    (∃ err, (b.AuditRequest env req pluginRes).outcome = Outcome.returned (some err)) ∧
    (b.AuditRequest env req pluginRes).records = [] ∧
    (b.AuditRequest env req pluginRes).auditor = b := by
  cases req with
  | none => exact ⟨⟨_, rfl⟩, rfl, rfl⟩
  | some r =>
    cases pluginRes with
    | none => exact ⟨⟨_, rfl⟩, rfl, rfl⟩
    | some p => simp at h

/-- C3 at the standard output auditor, called with a nil request. -/
theorem AuditRequest_nil_argument_witness :
    ((none : Option Request) = none ∨ some sampleResponse = none) ∧
    ((∃ err, ((NewBasicAuditor (some { LogHook := AuditHookStdout })).AuditRequest sampleEnv
        none (some sampleResponse)).outcome = Outcome.returned (some err)) ∧
      ((NewBasicAuditor (some { LogHook := AuditHookStdout })).AuditRequest sampleEnv
        none (some sampleResponse)).records = [] ∧
      ((NewBasicAuditor (some { LogHook := AuditHookStdout })).AuditRequest sampleEnv
        none (some sampleResponse)).auditor
        = NewBasicAuditor (some { LogHook := AuditHookStdout })) :=
  ⟨Or.inl rfl, AuditRequest_nil_argument sampleEnv _ none (some sampleResponse) (Or.inl rfl)⟩

/-- C4 (as stated, refuted).  An auditor is handed the pointer to the response
that the handler marshals afterwards.  With the auditor that succeeds and sets
`Allow` to false, the handler writes a denying decision (the byte 1) for the
request the authorizer allowed; with the basic auditor without settings, whose
`AuditRequest` returns an error, it writes the allowing decision (the byte 2). -/
theorem handleAuthZReq_auditor_changes_decision_counterexample :
    (denyingAuditor.AuditRequest () (some sampleCreate)
        (sampleAuthorizer.AuthZReq sampleCreate)).outcome = Outcome.returned none ∧
    ((basicAuditor.toAuditor sampleEnv).AuditRequest (NewBasicAuditor none) (some sampleCreate)
        (sampleAuthorizer.AuthZReq sampleCreate)).outcome
      = Outcome.returned (some "Settings are not defined") ∧
    sampleJson.Marshal (sampleAuthorizer.AuthZReq sampleCreate) = Except.ok [2] ∧
    (handleAuthZReq sampleJson sampleAuthorizer denyingAuditor () [] (Except.ok [])).2
      = [WriterCall.Write [1]] ∧
    (handleAuthZReq sampleJson sampleAuthorizer (basicAuditor.toAuditor sampleEnv)
        (NewBasicAuditor none) [] (Except.ok [])).2
      = [WriterCall.Write [2]] :=
  ⟨rfl, rfl, rfl, rfl, rfl⟩

/-- C4 (amended).  For every request and any two auditors that leave the
response they are handed as it was, one whose `AuditRequest` succeeds and one
whose `AuditRequest` returns an error, the handler writes in both cases the
bytes `json.Marshal` yields for the value `AuthZReq` returned, followed by the
status 500 when that value is nil or carries an `Err`: the two callers see the
same decision. -/
theorem handleAuthZReq_writes_AuthZReq_decision {σ₁ σ₂ : Type} (J : Json)
    (authorizer : Authorizer) (aud₁ : Auditor σ₁) (s₁ : σ₁) (aud₂ : Auditor σ₂) (s₂ : σ₂)
    (w : ResponseWriter) (bytes : List Nat) (req : Request) (err : String) (data : List Nat)
    (hreq : J.Unmarshal bytes = Except.ok req)
    (hdata : J.Marshal (authorizer.AuthZReq req) = Except.ok data)
    (hok : (aud₁.AuditRequest s₁ (some req) (authorizer.AuthZReq req)).outcome
      = Outcome.returned none)
    (hkeep₁ : (authorizer.AuthZReq req).map
        (fun _ => (aud₁.AuditRequest s₁ (some req) (authorizer.AuthZReq req)).pluginRes)
      = authorizer.AuthZReq req)
    (herr : (aud₂.AuditRequest s₂ (some req) (authorizer.AuthZReq req)).outcome
      = Outcome.returned (some err))
    (hkeep₂ : (authorizer.AuthZReq req).map
        (fun _ => (aud₂.AuditRequest s₂ (some req) (authorizer.AuthZReq req)).pluginRes)
      = authorizer.AuthZReq req) :
    (handleAuthZReq J authorizer aud₁ s₁ w (Except.ok bytes)).2
      = w ++ [WriterCall.Write data] ++
          (match authorizer.AuthZReq req with
           | none => [WriterCall.WriteHeader 500]
           | some res => if res.Err != "" then [WriterCall.WriteHeader 500] else []) ∧
    (handleAuthZReq J authorizer aud₂ s₂ w (Except.ok bytes)).2
      = w ++ [WriterCall.Write data] ++
          (match authorizer.AuthZReq req with
           | none => [WriterCall.WriteHeader 500]
           | some res => if res.Err != "" then [WriterCall.WriteHeader 500] else []) := by
  constructor
  · simp only [handleAuthZReq, hreq, hok, hkeep₁, writeResponse, hdata]
    cases authorizer.AuthZReq req with
    | none => simp [StatusInternalServerError]
    | some res => by_cases he : res.Err = "" <;> simp [StatusInternalServerError, he]
  · simp only [handleAuthZReq, hreq, herr, hkeep₂, writeResponse, hdata]
    cases authorizer.AuthZReq req with
    | none => simp [StatusInternalServerError]
    | some res => by_cases he : res.Err = "" <;> simp [StatusInternalServerError, he]

/-- C4 (amended) at the basic authorizer, with the standard output auditor
(which succeeds) and the basic auditor without settings (which returns an
error): both times the handler writes the allowing decision. -/
theorem handleAuthZReq_writes_AuthZReq_decision_witness :
    (handleAuthZReq sampleJson sampleAuthorizer (basicAuditor.toAuditor sampleEnv)
        (NewBasicAuditor (some { LogHook := AuditHookStdout })) [] (Except.ok [])).2
      = [WriterCall.Write [2]] ∧
    (handleAuthZReq sampleJson sampleAuthorizer (basicAuditor.toAuditor sampleEnv)
        (NewBasicAuditor none) [] (Except.ok [])).2
      = [WriterCall.Write [2]] :=
  handleAuthZReq_writes_AuthZReq_decision sampleJson sampleAuthorizer
    (basicAuditor.toAuditor sampleEnv) (NewBasicAuditor (some { LogHook := AuditHookStdout }))
    (basicAuditor.toAuditor sampleEnv) (NewBasicAuditor none) [] [] sampleCreate
    "Settings are not defined" [2] rfl rfl rfl rfl rfl rfl

/-- C5.  For every authorizer (whatever its policies) and every request
(whatever its method, URI, user and body), `AuthZRes` returns a response with
`Allow = true`. -/
theorem AuthZRes_always_allows (f : basicAuthorizer) (req : Request) :
    (f.AuthZRes req).Allow = true := rfl

/-- C6 (as stated, refuted).  On the standard output auditor, the record written
for a request and an allowing response has nine keys, not six: `msg` is bound
to the constant `Request`, and the response's `Msg` is under `fields.msg`. -/
theorem AuditRequest_record_keys_counterexample :
    ((NewBasicAuditor (some { LogHook := AuditHookStdout })).AuditRequest sampleEnv
        (some sampleRequest) (some sampleResponse)).outcome = Outcome.returned none ∧
    ((NewBasicAuditor (some { LogHook := AuditHookStdout })).AuditRequest sampleEnv
        (some sampleRequest) (some sampleResponse)).records.map
        (fun r => (r.logger.Formatter, JSONFormatter.Format r.entry))
      = [(LogFormatter.json,
          [ ("method", FieldValue.str "GET"),
            ("uri", FieldValue.str "/containers/json"),
            ("user", FieldValue.str "user"),
            ("allow", FieldValue.bool true),
            ("msg", FieldValue.str "Request"),
            ("err", FieldValue.str ""),
            ("fields.msg", FieldValue.str "Action 'container_list' allowed"),
            ("time", FieldValue.str "2016-02-01T10:00:00Z"),
            ("level", FieldValue.str "info") ])] ∧
    FieldValue.str "Request" ≠ FieldValue.str sampleResponse.Msg :=
  ⟨rfl, rfl, by decide⟩

/-- C6 (amended).  On an auditor built by `NewBasicAuditor`, after any sequence
of earlier calls, when `AuditRequest` succeeds on a request and a response it
emits one record, written by the JSON formatter; its keys are exactly `method`,
`uri`, `user`, `allow`, `msg`, `err`, `fields.msg`, `time` and `level`;
`method`, `uri` and `user` are bound to the request's `RequestMethod`,
`RequestURI` and `User`; `allow`, `err` and `fields.msg` to the response's
`Allow`, `Err` and `Msg`; `msg` is the constant `Request`, `level` is `info` and
`time` is the time of the call; `err` is bound also when `Err` is the empty
string. -/
theorem AuditRequest_record_line (settings : Option BasicAuditorSettings) (cs : List Call)
    (env : Env) (req : Request) (res : Response)
    (h : (((NewBasicAuditor settings).after cs).AuditRequest env
      (some req) (some res)).outcome = Outcome.returned none) :
    ∃ e, (((NewBasicAuditor settings).after cs).AuditRequest env
        (some req) (some res)).records = [e] ∧
      e.logger.Formatter = LogFormatter.json ∧
      Fields.keys (JSONFormatter.Format e.entry)
        = ["method", "uri", "user", "allow", "msg", "err", "fields.msg", "time", "level"] ∧
      Fields.get (JSONFormatter.Format e.entry) "method"
        = some (FieldValue.str req.RequestMethod) ∧
      Fields.get (JSONFormatter.Format e.entry) "uri" = some (FieldValue.str req.RequestURI) ∧
      Fields.get (JSONFormatter.Format e.entry) "user" = some (FieldValue.str req.User) ∧
      Fields.get (JSONFormatter.Format e.entry) "allow" = some (FieldValue.bool res.Allow) ∧
      Fields.get (JSONFormatter.Format e.entry) "err" = some (FieldValue.str res.Err) ∧
      Fields.get (JSONFormatter.Format e.entry) "fields.msg" = some (FieldValue.str res.Msg) ∧
      Fields.get (JSONFormatter.Format e.entry) "msg" = some (FieldValue.str "Request") ∧
      Fields.get (JSONFormatter.Format e.entry) "level" = some (FieldValue.str "info") ∧
      Fields.get (JSONFormatter.Format e.entry) "time" = some (FieldValue.str env.Now) := by
  have h0 : (NewBasicAuditor settings).hasJsonLogger := by
    intro l hl
    simp [NewBasicAuditor] at hl
  have hj := after_json _ h0 cs
  generalize (NewBasicAuditor settings).after cs = b at h hj
  have hj1 := init_json env b hj
  cases hr : b.init env with
  | mk b1 e =>
    rw [hr] at hj1
    cases e with
    | some err => simp [basicAuditor.AuditRequest, hr] at h
    | none =>
      obtain ⟨_, ⟨l, hl⟩, _⟩ := init_success env b b1 hr
      have hf := hj1 l hl
      simp [basicAuditor.AuditRequest, hr, hl, Logger.Info, JSONFormatter.Format,
        prefixFieldClashes, Fields.set, Fields.keys, Fields.get, Level.name, hf]

/-- C6 (amended) at the file auditor, after an earlier call, with a response
whose `Err` is empty. -/
theorem AuditRequest_record_line_witness :
    (((NewBasicAuditor
        (some { LogHook := AuditHookFile, LogPath := "/tmp/auth-plugin-stub.log" })).after
        [Call.AuditRequest sampleEnv (some sampleCreate) (some sampleResponse)]).AuditRequest
        sampleEnv (some sampleRequest) (some sampleResponse)).outcome = Outcome.returned none ∧
    ∃ e, (((NewBasicAuditor
        (some { LogHook := AuditHookFile, LogPath := "/tmp/auth-plugin-stub.log" })).after
        [Call.AuditRequest sampleEnv (some sampleCreate) (some sampleResponse)]).AuditRequest
        sampleEnv (some sampleRequest) (some sampleResponse)).records = [e] ∧
      e.logger.Formatter = LogFormatter.json ∧
      Fields.keys (JSONFormatter.Format e.entry)
        = ["method", "uri", "user", "allow", "msg", "err", "fields.msg", "time", "level"] ∧
      Fields.get (JSONFormatter.Format e.entry) "method"
        = some (FieldValue.str sampleRequest.RequestMethod) ∧
      Fields.get (JSONFormatter.Format e.entry) "uri"
        = some (FieldValue.str sampleRequest.RequestURI) ∧
      Fields.get (JSONFormatter.Format e.entry) "user"
        = some (FieldValue.str sampleRequest.User) ∧
      Fields.get (JSONFormatter.Format e.entry) "allow"
        = some (FieldValue.bool sampleResponse.Allow) ∧
      Fields.get (JSONFormatter.Format e.entry) "err"
        = some (FieldValue.str sampleResponse.Err) ∧
      Fields.get (JSONFormatter.Format e.entry) "fields.msg"
        = some (FieldValue.str sampleResponse.Msg) ∧
      Fields.get (JSONFormatter.Format e.entry) "msg" = some (FieldValue.str "Request") ∧
      Fields.get (JSONFormatter.Format e.entry) "level" = some (FieldValue.str "info") ∧
      Fields.get (JSONFormatter.Format e.entry) "time" = some (FieldValue.str sampleEnv.Now) :=
  ⟨rfl, AuditRequest_record_line _ _ sampleEnv sampleRequest sampleResponse rfl⟩

/-- C7.  On the auditor built by `NewBasicAuditor` with settings whose `LogHook`
is the empty string, after any sequence of earlier calls (none for the first
call), `AuditRequest` with a request and a response returns the nil error. -/
theorem stdout_AuditRequest_returns_no_error (LogPath : String) (cs : List Call)
    (env : Env) (req : Request) (res : Response) :
    (((NewBasicAuditor (some { LogHook := AuditHookStdout, LogPath := LogPath })).after
        cs).AuditRequest env (some req) (some res)).outcome = Outcome.returned none := by
  have h0 : (NewBasicAuditor
      (some { LogHook := AuditHookStdout, LogPath := LogPath })).hasStdoutSettings :=
    ⟨_, rfl, rfl⟩
  have h := after_stdout _ h0 cs
  generalize (NewBasicAuditor
      (some { LogHook := AuditHookStdout, LogPath := LogPath })).after cs = b at h
  have hi := init_stdout env b h
  cases hr : b.init env with
  | mk b1 e =>
    rw [hr] at hi
    simp only at hi
    obtain ⟨he, _⟩ := hi
    subst he
    obtain ⟨_, ⟨l, hl⟩, _⟩ := init_success env b b1 hr
    simp [basicAuditor.AuditRequest, hr, hl]

/-- C8 (as stated, refuted).  The response `AuthZRes` returns to a request has an
empty `Msg`. -/
theorem AuthZRes_Msg_empty_counterexample :
    ¬ ((basicAuthorizer.AuthZRes (NewBasicAuthZAuthorizer none)
        { User := "alice", RequestMethod := "GET", RequestURI := "/containers/json" }).Msg
      ≠ "") := by
  intro h
  exact h rfl

/-- C8 (amended).  For every request, the `Msg` of the response returned by
`AuthZReq` is non-empty, and the response returned by `AuthZRes` carries
`Allow = true` and an empty `Msg`. -/
theorem AuthZReq_Msg_nonempty_AuthZRes_Msg_empty (ParseRoute : String → String → String)
    (f : basicAuthorizer) (req : Request) :
    (f.AuthZReq ParseRoute req).Msg ≠ "" ∧
    (f.AuthZRes req).Allow = true ∧ (f.AuthZRes req).Msg = "" := by
  refine ⟨?_, rfl, rfl⟩
  rw [AuthZReq_Msg]
  exact append_ne_empty _ _ _ (by decide)

/-- C9.  Once `init` has returned the nil error on an auditor, leaving it as
`b1`, then after any sequence of later calls the auditor is still `b1`; a later
`init` returns the nil error and leaves the auditor (logger, output handle and
hooks) as `b1`; and a later `AuditRequest` with a request and a response returns
the nil error, leaves the auditor as `b1` and emits its one record through the
logger of `b1`. -/
theorem init_idempotent (env : Env) (b b1 : basicAuditor)
    (h : b.init env = (b1, none)) (cs : List Call) (env2 : Env)
    (req : Request) (res : Response) :
    b1.after cs = b1 ∧
    (b1.after cs).init env2 = (b1, none) ∧
    ((b1.after cs).AuditRequest env2 (some req) (some res)).outcome = Outcome.returned none ∧
    ((b1.after cs).AuditRequest env2 (some req) (some res)).auditor = b1 ∧
    ∃ l e, b1.logger = some l ∧
      ((b1.after cs).AuditRequest env2 (some req) (some res)).records = [e] ∧
      e.logger = l := by
  obtain ⟨⟨s, hs⟩, ⟨l, hl⟩, _⟩ := init_success env b b1 h
  have ha := after_of_logger b1 s l hs hl cs
  rw [ha]
  obtain ⟨h1, h2, e, h3, h4⟩ := AuditRequest_of_logger env2 b1 s l hs hl req res
  exact ⟨rfl, init_of_logger env2 b1 s l hs hl, h2, h1, l, e, hl, h3, h4⟩

/-- C9 at the file auditor: `init` opens the file once, and a later `init`,
after two calls of `AuditRequest`, returns the auditor as it is. -/
theorem init_idempotent_witness :
    (NewBasicAuditor (some { LogHook := AuditHookFile, LogPath := "/tmp/auth-plugin-stub.log" })).init
        sampleEnv
      = ({ logger := some
            { Out := Writer.file { name := "/tmp/auth-plugin-stub.log", fd := 3 },
              Formatter := LogFormatter.json, Hooks := [] },
           settings := some { LogHook := AuditHookFile, LogPath := "/tmp/auth-plugin-stub.log" } },
         none) ∧
    (basicAuditor.after
        { logger := some
            { Out := Writer.file { name := "/tmp/auth-plugin-stub.log", fd := 3 },
              Formatter := LogFormatter.json, Hooks := [] },
          settings := some { LogHook := AuditHookFile, LogPath := "/tmp/auth-plugin-stub.log" } }
        [Call.AuditRequest sampleEnv (some sampleRequest) (some sampleResponse),
          Call.AuditRequest sampleEnv none (some sampleResponse)]).init sampleEnv
      = ({ logger := some
            { Out := Writer.file { name := "/tmp/auth-plugin-stub.log", fd := 3 },
              Formatter := LogFormatter.json, Hooks := [] },
           settings := some { LogHook := AuditHookFile, LogPath := "/tmp/auth-plugin-stub.log" } },
         none) :=
  ⟨rfl,
    (init_idempotent sampleEnv
      (NewBasicAuditor (some { LogHook := AuditHookFile, LogPath := "/tmp/auth-plugin-stub.log" }))
      _ rfl
      [Call.AuditRequest sampleEnv (some sampleRequest) (some sampleResponse),
        Call.AuditRequest sampleEnv none (some sampleResponse)]
      sampleEnv sampleRequest sampleResponse).2.1⟩

/-- C10 (the code departs from the claim).  The claim: with a `LogHook` that is
none of `""`, `file` and `syslog`, every call of `AuditRequest` with a request
and a response returns an error and emits no record.  The code: the first call
returns the error `Wrong log hook value` and emits nothing, but it leaves the
fresh logger in the auditor, so the second call on the same auditor returns the
nil error and emits a record through that logger. -/
theorem unknown_hook_later_call_succeeds (hook LogPath : String)
    (h1 : hook ≠ AuditHookStdout) (h2 : hook ≠ AuditHookFile) (h3 : hook ≠ AuditHookSyslog)
    (env env2 : Env) (req : Request) (res : Response) :
    ((NewBasicAuditor (some { LogHook := hook, LogPath := LogPath })).AuditRequest env
        (some req) (some res)).outcome
      = Outcome.returned (some ("Wrong log hook value '" ++ hook ++ "'")) ∧
    ((NewBasicAuditor (some { LogHook := hook, LogPath := LogPath })).AuditRequest env
        (some req) (some res)).records = [] ∧
    (((NewBasicAuditor (some { LogHook := hook, LogPath := LogPath })).AuditRequest env
        (some req) (some res)).auditor.AuditRequest env2 (some req) (some res)).outcome
      = Outcome.returned none ∧
    ∃ e, (((NewBasicAuditor (some { LogHook := hook, LogPath := LogPath })).AuditRequest env
        (some req) (some res)).auditor.AuditRequest env2 (some req) (some res)).records = [e] ∧
      e.logger = { Out := Writer.stderr, Formatter := LogFormatter.json, Hooks := [] } := by
  have hi : (NewBasicAuditor (some { LogHook := hook, LogPath := LogPath })).init env
      = ({ logger := some { logrusNew with Formatter := LogFormatter.json },
           settings := some { LogHook := hook, LogPath := LogPath } },
         some ("Wrong log hook value '" ++ hook ++ "'")) := by
    simp only [basicAuditor.init, NewBasicAuditor, if_neg h1, if_neg h2, if_neg h3]
  have hr : ((NewBasicAuditor (some { LogHook := hook, LogPath := LogPath })).AuditRequest env
      (some req) (some res))
      = ⟨{ logger := some { logrusNew with Formatter := LogFormatter.json },
           settings := some { LogHook := hook, LogPath := LogPath } }, [],
         Outcome.returned (some ("Wrong log hook value '" ++ hook ++ "'"))⟩ := by
    simp only [basicAuditor.AuditRequest, hi]
  rw [hr]
  obtain ⟨_, h5, e, h6, h7⟩ := AuditRequest_of_logger env2
    { logger := some { logrusNew with Formatter := LogFormatter.json },
      settings := some { LogHook := hook, LogPath := LogPath } }
    { LogHook := hook, LogPath := LogPath } { logrusNew with Formatter := LogFormatter.json }
    rfl rfl req res
  exact ⟨rfl, rfl, h5, e, h6, h7⟩

/-- C10 at the hook `journald`: the first call fails, the second succeeds and
emits one record. -/
theorem unknown_hook_later_call_succeeds_witness :
    ("journald" ≠ AuditHookStdout ∧ "journald" ≠ AuditHookFile ∧
      "journald" ≠ AuditHookSyslog) ∧
    ((NewBasicAuditor (some { LogHook := "journald", LogPath := "" })).AuditRequest sampleEnv
        (some sampleRequest) (some sampleResponse)).outcome
      = Outcome.returned (some "Wrong log hook value 'journald'") ∧
    (((NewBasicAuditor (some { LogHook := "journald", LogPath := "" })).AuditRequest sampleEnv
        (some sampleRequest) (some sampleResponse)).auditor.AuditRequest sampleEnv
        (some sampleRequest) (some sampleResponse)).outcome
      = Outcome.returned none ∧
    (((NewBasicAuditor (some { LogHook := "journald", LogPath := "" })).AuditRequest sampleEnv
        (some sampleRequest) (some sampleResponse)).auditor.AuditRequest sampleEnv
        (some sampleRequest) (some sampleResponse)).records.length = 1 :=
  have h := unknown_hook_later_call_succeeds "journald" "" (by decide) (by decide) (by decide)
    sampleEnv sampleEnv sampleRequest sampleResponse
  ⟨⟨by decide, by decide, by decide⟩, h.1, h.2.2.1, by
    obtain ⟨e, he, _⟩ := h.2.2.2
    rw [he]
    rfl⟩

end AuthPluginStub
